import Mathlib

/-!
Shallow embedding of the serial-console / framed-request protocol of the
`kernel_chat_w_JonnC_extensions` repository, together with theorems settling
the frozen claims C1..C10 about its natural-language specification.

Layer 1 (CLI, `useSlashCommandProcessor` in the cli package): the line ring
buffer `recentLogs` (capacity `LOG_RING_SIZE = 2000`), the saved fence
`lastCommandStartIdx`, and the `/serial` subcommands `tail`, `summarize`,
`clear`, `disconnect`.  Lines are plain `String`s.

Layer 2 (core tools): the marker-framed request machinery of
`GetDeviceInfoTool`, `GetDeviceTreeTool`, `RealTimeAnalysisTool` and
`GetDriverInfoTool`: marker-id generation, line-based and substring-based
marker-pair extraction, and the fixed-interval polling loops.  Lines and
texts are `List Char` (the `.data` of a JS string), so that JS `trim`,
`indexOf` and `split` can be modelled character-exactly.
-/

/-- Whitespace test used by the embedding of JS `String.prototype.trim`
(the ASCII whitespace characters; the markers and echoed script lines the
claims are about are pure ASCII). -/
def jsWs (c : Char) : Bool :=
  c == ' ' || c == '\t' || c == '\n' || c == '\r' || c == '\x0b' || c == '\x0c'

/-- Embedding of JS `String.prototype.trim` on the character list of a
string: drop whitespace from both ends. -/
def jsTrim (l : List Char) : List Char :=
  ((l.dropWhile jsWs).reverse.dropWhile jsWs).reverse

/-- Embedding of JS `Array.prototype.findIndex`: index of the first element
satisfying the predicate, `none` when there is none (JS `-1`). -/
def firstMatch (p : α → Bool) : List α → Option Nat
  | [] => none
  | x :: xs => if p x then some 0 else (firstMatch p xs).map (· + 1)

/-- Embedding of JS `String.prototype.indexOf(pat)` on character lists:
position of the first occurrence of `pat`, `none` for JS `-1`. -/
def idxOf (pat : List Char) : List Char → Option Nat
  | [] => if pat = [] then some 0 else none
  | c :: rest =>
    if pat.isPrefixOf (c :: rest) then some 0 else (idxOf pat rest).map (· + 1)

/-- Embedding of JS `String.prototype.indexOf(pat, start)`. -/
def idxOfFrom (pat hay : List Char) (start : Nat) : Option Nat :=
  (idxOf pat (hay.drop start)).map (· + start)

/-- Embedding of JS `String.prototype.includes(pat)`. -/
def hasSub (pat hay : List Char) : Bool :=
  (idxOf pat hay).isSome

/-- Embedding of JS `String.prototype.slice(b, e)` on character lists:
the characters at positions `b ≤ i < e`. -/
def jsSliceBE (l : List Char) (b e : Nat) : List Char :=
  (l.take e).drop b

/-- Embedding of JS `Array.prototype.slice(start)` with a possibly negative
`start` index, as used by `/serial tail` (`recentLogs.slice(-n)`): a negative
start counts from the end and is clamped at the start of the array. -/
def jsSliceFrom (l : List α) (start : Int) : List α :=
  if start < 0 then l.drop (l.length - (-start).toNat)
  else l.drop start.toNat

/-- Embedding of JS `String.prototype.split(sep)` (non-empty separator) on
character lists; `fuel` bounds the recursion and is always called with
`hay.length + 1`, which is enough because each step consumes at least the
separator. -/
def splitOnSub (pat : List Char) : Nat → List Char → List (List Char)
  | 0, hay => [hay]
  | fuel + 1, hay =>
    match idxOf pat hay with
    | none => [hay]
    | some i => hay.take i :: splitOnSub pat fuel (hay.drop (i + pat.length))

/-! ## Layer 1: the CLI serial subsystem (`part_000`) -/

/-- Capacity of the `recentLogs` line ring buffer
(`const LOG_RING_SIZE = 2000`). -/
def LOG_RING_SIZE : Nat := 2000

/-- One step of the serial data handler's ring-buffer maintenance, for one
complete assembled line: `recentLogs.push(line)` followed by the bulk
eviction `recentLogs.splice(0, excess)` when the capacity is exceeded
(`part_000` lines 1057-1065), abstracted over the capacity. -/
def ringPush (cap : Nat) (logs : List String) (line : String) : List String :=
  let grown := logs ++ [line]
  if cap < grown.length then grown.drop (grown.length - cap) else grown

/-- Appending a whole sequence of lines through `ringPush`, starting from a
given buffer. -/
def ringPushAll (cap : Nat) (logs : List String) (xs : List String) : List String :=
  xs.foldl (ringPush cap) logs

/-- State touched by the serial data handler: the ring buffer and the saved
command-start fence `lastCommandStartIdx` (an ordinary JS number, hence
modelled as `Int` so that the claim "never becomes negative" is a real
statement). -/
structure RingState where
  logs : List String
  fence : Int
deriving DecidableEq

/-- The serial data handler's action for one complete line: push, evict in
one batch when over capacity, and clamp the saved fence downward by the
eviction count (`lastCommandStartIdx = Math.max(0, lastCommandStartIdx -
excess)`, `part_000` lines 1058-1064). -/
def handleSerialLine (cap : Nat) (st : RingState) (line : String) : RingState :=
  let grown := st.logs ++ [line]
  if cap < grown.length then
    let excess := grown.length - cap
    { logs := grown.drop excess, fence := max 0 (st.fence - (excess : Int)) }
  else
    { logs := grown, fence := st.fence }

/-- The `/serial summarize` normalisation of its start index: a fence that is
negative or at/beyond the current buffer length is replaced by `0`
(`if (startIdx < 0 || startIdx >= recentLogs.length) startIdx = 0`,
`part_000` line 1115). -/
def summarizeStartIdx (logs : List String) (idx : Int) : Nat :=
  if idx < 0 ∨ (logs.length : Int) ≤ idx then 0 else idx.toNat

/-- The lines `/serial summarize` actually feeds to the summarizer:
`recentLogs.slice(startIdx)` after the normalisation above (`part_000`
lines 1115-1117). -/
def summarizeSlice (logs : List String) (idx : Int) : List String :=
  logs.drop (summarizeStartIdx logs idx)

/-- The `/serial tail` count argument: `args ? parseInt(args, 10) || 20 : 20`
(`part_000` line 1104).  `none` models a missing or unparsable (`NaN`)
argument; a parsed `0` is falsy in JS and also falls back to the default 20. -/
def tailArgCount (arg : Option Int) : Int :=
  match arg with
  | none => 20
  | some k => if k = 0 then 20 else k

/-- The `/serial tail` output lines: `recentLogs.slice(-n)` (`part_000`
line 1105). -/
def serialTailCmd (logs : List String) (arg : Option Int) : List String :=
  jsSliceFrom logs (-(tailArgCount arg))

/-- Probe-visible CLI session state around the `/serial` commands: the
global active-serial handle (`globalThis.GEMINI_ACTIVE_SERIAL`), the saved
port setting (`process.env.GEMINI_SERIAL_PORT`), the open state of the
`SerialConsole`'s port, the worker, the one-shot hint flag, and the ring
buffer with its fence.  `logsId` models the JS array *reference identity* of
`recentLogs`: mutating in place keeps it, rebinding would change it. -/
structure UIState where
  activeSerialGlobal : Bool
  portEnv : Option String
  consoleOpen : Bool
  workerAlive : Bool
  hintShown : Bool
  logs : List String
  logsId : Nat
  fence : Int
deriving DecidableEq

/-- The `/serial clear` command: `recentLogs.length = 0` empties the buffer
in place, keeping the same array reference (`part_000` lines 1159-1161). -/
def serialClearCmd (st : UIState) : UIState :=
  { st with logs := [] }

/-- The `/serial disconnect` command (`part_000` lines 1312-1327):
closes the serial port, terminates the worker, deletes
`process.env.GEMINI_SERIAL_PORT` and `globalThis.GEMINI_ACTIVE_SERIAL`, and
resets the hint flag.  It does not touch `recentLogs` or
`lastCommandStartIdx`. -/
def serialDisconnectCmd (st : UIState) : UIState :=
  { st with
    consoleOpen := false
    workerAlive := false
    portEnv := none
    activeSerialGlobal := false
    hintShown := false }

/-! ## `SerialConsole.send` (`subsystems/serialConsole.ts`) -/

/-- Outcome of `SerialConsole.send`: either bytes written to the port, or
the `'Serial port not open'` error event with nothing transmitted. -/
inductive SendOutcome where
  | transmitted (bytes : String)
  | notOpenError
deriving DecidableEq

/-- Embedding of `SerialConsole.send` (`serialConsole.ts` lines 39-45): when
the port is open it writes `data + '\n'` (a line break is appended
unconditionally); otherwise it emits a not-open error and writes nothing. -/
def consoleSend (isOpen : Bool) (data : String) : SendOutcome :=
  if isOpen then .transmitted (data ++ "\n") else .notOpenError

/-- Whether a JS string already ends with a line break. -/
def endsWithNl (s : String) : Bool :=
  s.data.getLast? == some '\n'

/-- The transmission behaviour the spec sentence describes (for the
refinement comparison in claim C5): append a trailing line break only if the
text does not already end with one. -/
def specSendBytes (data : String) : String :=
  if endsWithNl data then data else data ++ "\n"

/-! ## Layer 2: marker ids (`Math.random().toString(36).slice(2, 8)`) -/

/-- The base-36 digit table used by JS `Number.prototype.toString(36)`. -/
def base36Table : List Char := "0123456789abcdefghijklmnopqrstuvwxyz".data

/-- The base-36 digit character for a digit value `d < 36`. -/
def base36Digit (d : Nat) : Char := base36Table.getD d '0'

/-- Denominator of the random doubles: `Math.random()` is modelled as the
binary rational `k / 2 ^ 53` with `k < 2 ^ 53` (the canonical 53-bit uniform
granularity of `[0, 1)`). -/
def RAND_DEN : Nat := 2 ^ 53

/-- Successive base-36 fraction digits of `x / RAND_DEN`, at most `fuel` of
them, stopping early when the expansion terminates (remainder `0`) — for
`x = 0` the JS rendering is just `"0"`, with no fraction digits at all. -/
def runIdDigits : Nat → Nat → List Char
  | _, 0 => []
  | x, fuel + 1 =>
    if x = 0 then []
    else base36Digit (x * 36 / RAND_DEN) :: runIdDigits (x * 36 % RAND_DEN) fuel

/-- Embedding of the marker-id generator shared by all four tools:
`Math.random().toString(36).slice(2, 8)` — the first at most six base-36
fraction digits of the random double `k / RAND_DEN` (`slice(2, 8)` skips the
leading `"0."`; engine rounding of the last *printed* digit of a long
expansion is not modelled, it cannot change the length bound or the digit
alphabet). -/
def randomRunId (k : Nat) : List Char :=
  runIdDigits k 6

/-! ## Layer 2: marker tokens and line-based extraction -/

/-- `__START_${runId}__` of `GetDeviceInfoTool` (`get-device-info.ts`
line 495). -/
def devStartMark (id : List Char) : List Char :=
  "__START_".data ++ id ++ "__".data

/-- `__END_${runId}__` of `GetDeviceInfoTool` (`get-device-info.ts`
line 496). -/
def devEndMark (id : List Char) : List Char :=
  "__END_".data ++ id ++ "__".data

/-- `__DRV_START_${runId}__` of `GetDriverInfoTool` (`part_004` line 133). -/
def drvStartMark (id : List Char) : List Char :=
  "__DRV_START_".data ++ id ++ "__".data

/-- `__DRV_END_${runId}__` of `GetDriverInfoTool` (`part_004` line 134). -/
def drvEndMark (id : List Char) : List Char :=
  "__DRV_END_".data ++ id ++ "__".data

/-- Whether a buffered line counts as an occurrence of the marker `m`:
`l.trim() === m` (`get-device-info.ts` lines 536 and 539, `part_004`
lines 210 and 212). -/
def isMarkLine (m : List Char) (l : List Char) : Bool :=
  jsTrim l == m

/-- The line-based marker-pair extraction shared by
`GetDeviceInfoTool.collectViaActiveSerialLogBuffer` (lines 534-543) and
`GetDriverInfoTool.scanViaSerialLogBuffer` (lines 209-215): find the first
line trim-equal to the start marker, then the first later line trim-equal to
the end marker, and return the lines strictly between them; `none` when
either marker line is missing (the poll tick then returns without
resolving). -/
def markPairExtract (S E : List Char) (slice : List (List Char)) :
    Option (List (List Char)) :=
  match firstMatch (isMarkLine S) slice with
  | none => none
  | some i =>
    match firstMatch (isMarkLine E) (slice.drop (i + 1)) with
    | none => none
    | some j => some ((slice.drop (i + 1)).take j)

/-! ## Layer 2: substring-based extraction of the device-tree and
real-time-analysis tools -/

/-- Whether a slice contains a data line, i.e. the regex test
`/^N\|/m.test(slice)` of `get-device-tree.ts` line 240: some line of the
slice starts with `N|`. -/
def hasDataLine (sl : List Char) : Bool :=
  (sl.splitOn '\n').any (fun l => "N|".data.isPrefixOf l)

/-- The fallback scan of `GetDeviceTreeTool.collectViaActiveSerialLogBuffer`
(lines 232-242): walk all complete `(start, end)` pairs from `scanPos`,
keeping the latest slice that contains a data line; `fuel` bounds the walk
and is called with `full.length + 1`, enough because `scanPos` strictly
increases. -/
def dtFallbackScan (S E full : List Char) : Nat → Nat → List Char → List Char
  | 0, _, acc => acc
  | fuel + 1, scanPos, acc =>
    match idxOfFrom S full scanPos with
    | none => acc
    | some s =>
      match idxOfFrom E full (s + S.length) with
      | none => acc
      | some e =>
        let sl := jsSliceBE full (s + S.length) e
        dtFallbackScan S E full fuel (e + E.length)
          (if hasDataLine sl then sl else acc)

/-- Embedding of the extraction step of
`GetDeviceTreeTool.collectViaActiveSerialLogBuffer` (lines 215-243), acting
on the whole joined log text `full`: wait until both markers occur; locate
the first pair; prefer the *second* complete pair when present ("User
request: take SECOND START/END pair"); otherwise fall back to the latest
complete pair whose slice carries data lines (empty payload when none
does).  `none` covers both "not yet ready" and the dangling
`if (firstEnd === -1) return` path. -/
def dtExtract (S E full : List Char) : Option (List Char) :=
  if hasSub S full ∧ hasSub E full then
    match idxOf S full with
    | none => none
    | some fs =>
      match idxOfFrom E full (fs + S.length) with
      | none => none
      | some fe =>
        match idxOfFrom S full (fe + E.length) with
        | some ss =>
          match idxOfFrom E full (ss + S.length) with
          | some se => some (jsSliceBE full (ss + S.length) se)
          | none => some (dtFallbackScan S E full (full.length + 1) fs [])
        | none => some (dtFallbackScan S E full (full.length + 1) fs [])
  else none

/-- Embedding of the extraction step of
`RealTimeAnalysisTool.collectViaActiveSerialLogBuffer` (lines 258-265):
split the whole joined log text on the start marker; unless a *second*
start marker has been seen (`startPieces.length < 3`) keep polling; then
return the text after the second start marker up to the next end marker.
There is no single-pair fallback. -/
def rtExtract (S E full : List Char) : Option (List Char) :=
  let pieces := splitOnSub S (full.length + 1) full
  if pieces.length < 3 then none
  else
    let p := pieces.getD 2 []
    match idxOf E p with
    | none => none
    | some j => some (p.take j)

/-! ## Layer 2: the polling loops -/

/-- Outcome of `GetDeviceInfoTool`'s log-buffer polling promise: a timeout
rejection or a matched payload, each with the elapsed time (in ms, tick
number times poll interval) at which it fired. -/
inductive PollOutcome (α : Type) where
  | timedOut (tMs : Nat)
  | matched (val : α) (tMs : Nat)
  | hung
deriving DecidableEq

/-- The `setInterval` polling loop of
`GetDeviceInfoTool.collectViaActiveSerialLogBuffer` (lines 523-552): at each
tick, first reject with the timeout error when the elapsed time exceeds
`timeoutMs`, otherwise attempt the extraction on the current buffer
snapshot; `fuel` bounds the recursion (the runs below always pass more fuel
than ticks before the deadline). -/
def pollLoop (extract : Nat → Option α) (timeoutMs pollMs : Nat) :
    Nat → Nat → PollOutcome α
  | _, 0 => .hung
  | tick, fuel + 1 =>
    if timeoutMs < tick * pollMs then .timedOut (tick * pollMs)
    else
      match extract tick with
      | some v => .matched v (tick * pollMs)
      | none => pollLoop extract timeoutMs pollMs (tick + 1) fuel

/-- `GetDeviceInfoTool`'s poll parameters: `timeoutMs = 20000`,
`pollMs = 150` (lines 524-525). -/
def devInfoRun (bufAt : Nat → List (List Char)) (startLen : Nat)
    (id : List Char) : PollOutcome (List (List Char)) :=
  pollLoop
    (fun k => markPairExtract (devStartMark id) (devEndMark id)
      ((bufAt k).drop startLen))
    20000 150 1 135

/-- The section accumulators of `GetDriverInfoTool.scanViaSerialLogBuffer`
(line 203): `sysfs`, `lspci`, `lsusb`, `fw` line lists and the `taint`
string. -/
structure DrvSections where
  sysfs : List (List Char)
  lspci : List (List Char)
  lsusb : List (List Char)
  fw : List (List Char)
  taint : List Char
deriving DecidableEq

/-- The accumulators at their initial values — what the deadline path
resolves with, since lines are only ever classified in the same tick that
immediately resolves. -/
def emptyDrvSections : DrvSections :=
  ⟨[], [], [], [], "0".data⟩

/-- Strip one trailing carriage return: `raw.replace(/\r$/, '')`
(`part_004` line 217). -/
def stripCr (l : List Char) : List Char :=
  if l.getLast? = some '\r' then l.dropLast else l

/-- Classification mode while walking the payload (`part_004` line 204). -/
inductive DrvMode where
  | modeNone | modeSysfs | modePci | modeUsb | modeFw | modeTaint
deriving DecidableEq

/-- One payload line of the section walk of `part_004` lines 216-228:
section headers switch the mode, other lines are appended to the current
section (`taint` keeps only the last line, `(line || '0').trim()`). -/
def drvStep (st : DrvSections × DrvMode) (raw : List Char) :
    DrvSections × DrvMode :=
  let line := stripCr raw
  if hasSub "---SYSFS---".data line then (st.1, .modeSysfs)
  else if hasSub "---LSPCI---".data line then (st.1, .modePci)
  else if hasSub "---LSUSB---".data line then (st.1, .modeUsb)
  else if hasSub "---FW---".data line then (st.1, .modeFw)
  else if hasSub "---TAINT---".data line then (st.1, .modeTaint)
  else
    match st.2 with
    | .modeSysfs => ({ st.1 with sysfs := st.1.sysfs ++ [line] }, st.2)
    | .modePci => ({ st.1 with lspci := st.1.lspci ++ [line] }, st.2)
    | .modeUsb => ({ st.1 with lsusb := st.1.lsusb ++ [line] }, st.2)
    | .modeFw => ({ st.1 with fw := st.1.fw ++ [line] }, st.2)
    | .modeTaint =>
      ({ st.1 with
        taint := jsTrim (if line = [] then "0".data else line) }, st.2)
    | .modeNone => st

/-- The sections built from an extracted payload. -/
def drvSectionsOf (payload : List (List Char)) : DrvSections :=
  (payload.foldl drvStep (emptyDrvSections, .modeNone)).1

/-- Outcome of `GetDriverInfoTool.scanViaSerialLogBuffer`'s polling promise:
it only ever *resolves* — there is no rejection path at all; the deadline
branch resolves with whatever has been accumulated (always
`emptyDrvSections`, see above). -/
inductive DrvOutcome where
  | resolvedWith (sections : DrvSections) (tMs : Nat)
  | hung
deriving DecidableEq

/-- The `setInterval` polling loop of
`GetDriverInfoTool.scanViaSerialLogBuffer` (lines 205-230): on deadline
expiry `resolve({ sysfs, lspci, lsusb, fw, taint })` with the (empty)
accumulators; on a marker match, classify the payload lines and resolve. -/
def drvPollLoop (extract : Nat → Option (List (List Char)))
    (timeoutMs pollMs : Nat) : Nat → Nat → DrvOutcome
  | _, 0 => .hung
  | tick, fuel + 1 =>
    if timeoutMs < tick * pollMs then .resolvedWith emptyDrvSections (tick * pollMs)
    else
      match extract tick with
      | some payload => .resolvedWith (drvSectionsOf payload) (tick * pollMs)
      | none => drvPollLoop extract timeoutMs pollMs (tick + 1) fuel

/-- `GetDriverInfoTool`'s poll parameters: `timeoutMs = 30000`,
`pollMs = 150` (lines 201, 230). -/
def driverScanRun (bufAt : Nat → List (List Char)) (startLen : Nat)
    (id : List Char) : DrvOutcome :=
  drvPollLoop
    (fun k => markPairExtract (drvStartMark id) (drvEndMark id)
      ((bufAt k).drop startLen))
    30000 150 1 202

/-! ## Helper lemmas about the JS primitives -/

theorem firstMatch_cons_true {p : α → Bool} {x : α} (l : List α) (h : p x = true) :
    firstMatch p (x :: l) = some 0 := by
  simp [firstMatch, h]

theorem firstMatch_first {p : α → Bool} (a : List α) {y : α} (l : List α)
    (ha : ∀ z ∈ a, p z = false) (hy : p y = true) :
    firstMatch p (a ++ y :: l) = some a.length := by
  induction a with
  | nil => simp [firstMatch, hy]
  | cons hd tl ih =>
    have hhd : p hd = false := ha hd (by simp)
    have htl := ih (fun z hz => ha z (by simp [hz]))
    simp [firstMatch, hhd, htl]

theorem firstMatch_none {p : α → Bool} (l : List α) (h : ∀ z ∈ l, p z = false) :
    firstMatch p l = none := by
  induction l with
  | nil => rfl
  | cons hd tl ih =>
    simp [firstMatch, h hd (by simp), ih (fun z hz => h z (by simp [hz]))]

theorem firstMatch_decomp {p : α → Bool} {l : List α} {i : Nat}
    (h : firstMatch p l = some i) :
    ∃ a x b, l = a ++ x :: b ∧ a.length = i ∧ p x = true ∧ ∀ y ∈ a, p y = false := by
  induction l generalizing i with
  | nil => simp [firstMatch] at h
  | cons hd tl ih =>
    simp only [firstMatch] at h
    by_cases hp : p hd
    · rw [if_pos hp] at h
      obtain rfl : (0 : Nat) = i := Option.some.inj h
      exact ⟨[], hd, tl, rfl, rfl, hp, by simp⟩
    · rw [if_neg hp] at h
      simp only [Bool.not_eq_true] at hp
      match hm : firstMatch p tl with
      | none => rw [hm] at h; simp at h
      | some j =>
        rw [hm] at h
        simp only [Option.map_some'] at h
        obtain rfl : j + 1 = i := Option.some.inj h
        obtain ⟨a, x, b, rfl, hlen, hx, hall⟩ := ih hm
        refine ⟨hd :: a, x, b, rfl, by simp [hlen], hx, ?_⟩
        intro y hy
        rcases List.mem_cons.mp hy with h1 | h2
        · rw [h1]; exact hp
        · exact hall y h2

theorem drop_len_cons (a : List α) (x : α) (b : List α) :
    (a ++ x :: b).drop (a.length + 1) = b := by
  induction a with
  | nil => simp
  | cons hd tl ih => simp [ih]

theorem take_len_append (a b : List α) : (a ++ b).take a.length = a := by
  induction a with
  | nil => simp
  | cons hd tl ih => simp [ih]

theorem dropWhile_cons_of_neg {p : α → Bool} {x : α} (l : List α) (h : p x = false) :
    List.dropWhile p (x :: l) = x :: l := by
  simp [List.dropWhile_cons, h]

theorem jsTrim_eq_self_cons_concat (c d : Char) (mid : List Char)
    (hc : jsWs c = false) (hd : jsWs d = false) :
    jsTrim (c :: (mid ++ [d])) = c :: (mid ++ [d]) := by
  unfold jsTrim
  rw [dropWhile_cons_of_neg _ hc]
  have hrev : (c :: (mid ++ [d])).reverse = d :: (mid.reverse ++ [c]) := by simp
  rw [hrev, dropWhile_cons_of_neg _ hd]
  simp

theorem jsTrim_eq_self_append (a m : List Char)
    (ha : ∃ c a2, a = c :: a2 ∧ jsWs c = false)
    (hm : ∃ m1 d, m = m1 ++ [d] ∧ jsWs d = false) :
    jsTrim (a ++ m) = a ++ m := by
  obtain ⟨c, a2, rfl, hc⟩ := ha
  obtain ⟨m1, d, rfl, hd⟩ := hm
  have hshape : (c :: a2) ++ (m1 ++ [d]) = c :: ((a2 ++ m1) ++ [d]) := by simp
  rw [hshape]
  exact jsTrim_eq_self_cons_concat _ _ _ hc hd

theorem isMarkLine_of_prefixed_false (a m : List Char)
    (ha : ∃ c a2, a = c :: a2 ∧ jsWs c = false)
    (hm : ∃ m1 d, m = m1 ++ [d] ∧ jsWs d = false) :
    isMarkLine m (a ++ m) = false := by
  unfold isMarkLine
  rw [jsTrim_eq_self_append a m ha hm, beq_eq_false_iff_ne]
  intro h
  obtain ⟨c, a2, rfl, -⟩ := ha
  have := congrArg List.length h
  simp at this
  omega

/-! ## Ring-buffer lemmas -/

theorem ringPush_eq_drop (cap : Nat) (logs : List String) (line : String) :
    ringPush cap logs line
      = (logs ++ [line]).drop ((logs ++ [line]).length - cap) := by
  simp only [ringPush]
  split
  · rfl
  · next hle =>
    have h0 : (logs ++ [line]).length - cap = 0 := by omega
    rw [h0, List.drop_zero]

theorem ringPush_length_le (cap : Nat) (logs : List String) (line : String) :
    (ringPush cap logs line).length ≤ cap := by
  rw [ringPush_eq_drop, List.length_drop]
  omega

theorem ring_drop_key (cap : Nat) (u xs : List String) :
    ((u.drop (u.length - cap)) ++ xs).drop
        (((u.drop (u.length - cap)) ++ xs).length - cap)
      = (u ++ xs).drop ((u ++ xs).length - cap) := by
  rw [← List.drop_append_of_le_length (by omega : u.length - cap ≤ u.length)]
  rw [List.drop_drop]
  congr 1
  simp only [List.length_drop, List.length_append]
  omega

theorem ringPushAll_eq_drop (cap : Nat) (xs : List String) :
    ∀ init : List String, init.length ≤ cap →
      ringPushAll cap init xs = (init ++ xs).drop ((init ++ xs).length - cap) := by
  induction xs with
  | nil =>
    intro init h
    simp [ringPushAll, Nat.sub_eq_zero_of_le h]
  | cons x xs ih =>
    intro init h
    have step : ringPushAll cap init (x :: xs)
        = ringPushAll cap (ringPush cap init x) xs := rfl
    rw [step, ih _ (ringPush_length_le cap init x), ringPush_eq_drop,
      ring_drop_key]
    simp

/-- C3: the line ring buffer (capacity `LOG_RING_SIZE = 2000` in the code)
holds at most `cap` lines after any push into a buffer respecting the bound;
appending `cap + k` lines into an empty buffer leaves exactly the last `cap`
appended lines in their original insertion order, the `k` excess lines
having been evicted from the head. -/
theorem claim_C3_ring_capacity :
    LOG_RING_SIZE = 2000 ∧
    (∀ (cap : Nat) (logs : List String) (line : String), logs.length ≤ cap →
      (ringPush cap logs line).length ≤ cap) ∧
    (∀ (cap k : Nat) (xs : List String), xs.length = cap + k →
      ringPushAll cap [] xs = xs.drop k ∧
      (ringPushAll cap [] xs).length = cap) := by
  refine ⟨rfl, fun cap logs line _ => ringPush_length_le cap logs line, ?_⟩
  intro cap k xs hlen
  have h := ringPushAll_eq_drop cap xs [] (by simp)
  simp only [List.nil_append] at h
  have hk : xs.length - cap = k := by omega
  rw [h, hk]
  refine ⟨rfl, ?_⟩
  rw [List.length_drop]
  omega

/-- Witness for C3 at `cap = 2`, `k = 1`, lines `["a", "b", "c"]`. -/
theorem claim_C3_witness :
    (ringPush 2 ["a"] "b").length ≤ 2 ∧
    ringPushAll 2 [] ["a", "b", "c"] = (["a", "b", "c"] : List String).drop 1 ∧
    (ringPushAll 2 [] ["a", "b", "c"]).length = 2 :=
  ⟨claim_C3_ring_capacity.2.1 2 ["a"] "b" (by decide),
   (claim_C3_ring_capacity.2.2 2 1 ["a", "b", "c"] (by decide)).1,
   (claim_C3_ring_capacity.2.2 2 1 ["a", "b", "c"] (by decide)).2⟩

/-- C4: on every handled line, the buffer evicts the excess from the head
and the held fence is decremented by the eviction count and clamped at `0`,
so a non-negative fence stays non-negative; and `/serial summarize`, slicing
from a stale fence at or beyond the current buffer length, treats it as the
start of the buffer. -/
theorem claim_C4_fence_clamp (cap : Nat) (st : RingState) (line : String)
    (logs : List String) (idx : Int) :
    ((handleSerialLine cap st line).logs
      = (st.logs ++ [line]).drop ((st.logs ++ [line]).length - cap)) ∧
    (cap < (st.logs ++ [line]).length →
      (handleSerialLine cap st line).fence
        = max 0 (st.fence - (((st.logs ++ [line]).length - cap : Nat) : Int))) ∧
    (0 ≤ st.fence → 0 ≤ (handleSerialLine cap st line).fence) ∧
    ((logs.length : Int) ≤ idx → summarizeSlice logs idx = logs) := by
  refine ⟨?_, ?_, ?_, ?_⟩
  · simp only [handleSerialLine]
    split
    · rfl
    · next hle =>
      have h0 : (st.logs ++ [line]).length - cap = 0 := by omega
      rw [h0, List.drop_zero]
  · intro hgt
    simp only [handleSerialLine]
    rw [if_pos hgt]
  · intro hf
    simp only [handleSerialLine]
    split
    · exact le_max_left 0 _
    · exact hf
  · intro hidx
    simp [summarizeSlice, summarizeStartIdx, if_pos (Or.inr hidx)]

/-- Witness for C4: capacity 2, buffer `["a", "b"]`, fence 1; pushing `"c"`
evicts one line and clamps the fence to `0`; summarizing from the stale
fence 5 on the buffer `["x"]` yields the whole buffer. -/
theorem claim_C4_witness :
    ((handleSerialLine 2 ⟨["a", "b"], 1⟩ "c").logs
      = ((["a", "b"] : List String) ++ ["c"]).drop
          (((["a", "b"] : List String) ++ ["c"]).length - 2)) ∧
    ((handleSerialLine 2 ⟨["a", "b"], 1⟩ "c").fence
      = max 0 ((1 : Int) - (((["a", "b"] : List String) ++ ["c"]).length - 2 : Nat))) ∧
    (0 ≤ (handleSerialLine 2 ⟨["a", "b"], 1⟩ "c").fence) ∧
    summarizeSlice ["x"] 5 = ["x"] :=
  ⟨(claim_C4_fence_clamp 2 ⟨["a", "b"], 1⟩ "c" ["x"] 5).1,
   (claim_C4_fence_clamp 2 ⟨["a", "b"], 1⟩ "c" ["x"] 5).2.1 (by decide),
   (claim_C4_fence_clamp 2 ⟨["a", "b"], 1⟩ "c" ["x"] 5).2.2.1 (by decide),
   (claim_C4_fence_clamp 2 ⟨["a", "b"], 1⟩ "c" ["x"] 5).2.2.2 (by decide)⟩

/-- C5 counterexample: on input `"ls\n"`, which already ends with a line
break, `SerialConsole.send` transmits `"ls\n\n"`, whereas the claimed
behaviour (append only if absent) would transmit `"ls\n"`. -/
theorem claim_C5_counterexample :
    consoleSend true "ls\n" = .transmitted "ls\n\n" ∧
    specSendBytes "ls\n" = "ls\n" ∧
    ("ls\n\n" : String) ≠ "ls\n" := by
  refine ⟨rfl, by decide, by decide⟩

/-- C5 amended: `send` always appends one line break to the transmitted
text, even when the text already ends with one; with no open port it fails
with the not-open error and transmits nothing. -/
theorem claim_C5_amended (data : String) :
    consoleSend true data = .transmitted (data ++ "\n") ∧
    consoleSend true (data ++ "\n") = .transmitted (data ++ "\n\n") ∧
    consoleSend false data = .notOpenError := by
  refine ⟨rfl, ?_, rfl⟩
  simp only [consoleSend, if_pos]
  have : ("\n" : String) ++ "\n" = "\n\n" := by decide
  rw [String.append_assoc, this]

/-- C6 counterexample: `tail(0)` on the buffer `["a","b","c","d","e"]` is
not empty — the parsed count 0 is falsy in JS and falls back to the default
20, so the whole 5-line buffer is returned (and even at the raw
`slice(-0) = slice(0)` level the result would be the whole buffer). -/
theorem claim_C6_counterexample :
    serialTailCmd ["a", "b", "c", "d", "e"] (some 0) = ["a", "b", "c", "d", "e"] ∧
    serialTailCmd ["a", "b", "c", "d", "e"] (some 0) ≠ ([] : List String) := by
  decide

/-- C6 amended: for every count `n ≥ 1`, `tail(n)` returns the last `n`
lines in stored order with `n` clamped to the buffer length (in particular
`tail(3)` on `["a","b","c","d","e"]` is `["c","d","e"]`); a count of `0`
does not give an empty sequence but falls back to the default count 20. -/
theorem claim_C6_amended (logs : List String) (n : Nat) (h : 0 < n) :
    serialTailCmd logs (some (n : Int)) = logs.drop (logs.length - n) ∧
    (serialTailCmd logs (some (n : Int))).length = min n logs.length ∧
    serialTailCmd logs (some 0) = serialTailCmd logs (some 20) ∧
    serialTailCmd ["a", "b", "c", "d", "e"] (some 3) = ["c", "d", "e"] := by
  have hne : (n : Int) ≠ 0 := by
    simpa using Nat.pos_iff_ne_zero.mp h
  have harg : tailArgCount (some (n : Int)) = (n : Int) := by
    simp [tailArgCount, hne]
  have hmain : serialTailCmd logs (some (n : Int)) = logs.drop (logs.length - n) := by
    simp only [serialTailCmd, harg, jsSliceFrom]
    rw [if_pos (by omega : -(n : Int) < 0)]
    congr 1
    omega
  refine ⟨hmain, ?_, by simp [serialTailCmd, tailArgCount], by decide⟩
  rw [hmain, List.length_drop]
  omega

/-- Witness for C6 at `n = 2` on a 5-line buffer. -/
theorem claim_C6_witness :
    serialTailCmd ["a", "b", "c", "d", "e"] (some ((2 : Nat) : Int))
      = (["a", "b", "c", "d", "e"] : List String).drop
          ((["a", "b", "c", "d", "e"] : List String).length - 2) ∧
    (serialTailCmd ["a", "b", "c", "d", "e"] (some ((2 : Nat) : Int))).length
      = min 2 (["a", "b", "c", "d", "e"] : List String).length :=
  ⟨(claim_C6_amended ["a", "b", "c", "d", "e"] 2 (by decide)).1,
   (claim_C6_amended ["a", "b", "c", "d", "e"] 2 (by decide)).2.1⟩

/-- C7: `/serial clear` empties the buffer while keeping the same array
reference; clearing twice leaves the buffer empty after each call, and
`tail` with any argument right after a clear returns an empty sequence. -/
theorem claim_C7_clear_idempotent (st : UIState) :
    (serialClearCmd st).logs = [] ∧
    (serialClearCmd st).logsId = st.logsId ∧
    serialClearCmd (serialClearCmd st) = serialClearCmd st ∧
    (serialClearCmd (serialClearCmd st)).logs = [] ∧
    (∀ arg, serialTailCmd (serialClearCmd st).logs arg = []) := by
  refine ⟨rfl, rfl, rfl, rfl, ?_⟩
  intro arg
  simp [serialClearCmd, serialTailCmd, jsSliceFrom]

/-- C9: `/serial disconnect` closes the transport, clears the probe-visible
session state (the global active-serial handle and the saved port setting),
and leaves the log buffer — contents, identity and fence — unchanged. -/
theorem claim_C9_disconnect_frame (st : UIState) :
    (serialDisconnectCmd st).consoleOpen = false ∧
    (serialDisconnectCmd st).activeSerialGlobal = false ∧
    (serialDisconnectCmd st).portEnv = none ∧
    (serialDisconnectCmd st).workerAlive = false ∧
    (serialDisconnectCmd st).logs = st.logs ∧
    (serialDisconnectCmd st).logsId = st.logsId ∧
    (serialDisconnectCmd st).fence = st.fence :=
  ⟨rfl, rfl, rfl, rfl, rfl, rfl, rfl⟩

/-! ## Marker-id lemmas (C8) -/

theorem base36Digit_mem (d : Nat) (h : d < 36) : base36Digit d ∈ base36Table := by
  unfold base36Digit
  have hlen : d < base36Table.length := by
    have : base36Table.length = 36 := by decide
    omega
  rw [List.getD_eq_getElem base36Table '0' hlen]
  exact List.getElem_mem hlen

theorem runIdDigits_length_le (fuel : Nat) :
    ∀ x : Nat, (runIdDigits x fuel).length ≤ fuel := by
  induction fuel with
  | zero => intro x; simp [runIdDigits]
  | succ n ih =>
    intro x
    simp only [runIdDigits]
    split
    · simp
    · simp only [List.length_cons]
      exact Nat.succ_le_succ (ih _)

theorem runIdDigits_mem (fuel : Nat) :
    ∀ x : Nat, x < RAND_DEN → ∀ c ∈ runIdDigits x fuel, c ∈ base36Table := by
  induction fuel with
  | zero => intro x _ c hc; simp [runIdDigits] at hc
  | succ n ih =>
    intro x hx c hc
    simp only [runIdDigits] at hc
    split at hc
    · simp at hc
    · rcases List.mem_cons.mp hc with h1 | h2
      · rw [h1]
        apply base36Digit_mem
        rw [Nat.div_lt_iff_lt_mul (by norm_num [RAND_DEN] : 0 < RAND_DEN)]
        calc x * 36 < RAND_DEN * 36 := by
              exact Nat.mul_lt_mul_of_lt_of_le hx (le_refl 36) (by norm_num)
          _ = 36 * RAND_DEN := Nat.mul_comm _ _
      · exact ih (x * 36 % RAND_DEN)
          (Nat.mod_lt _ (by norm_num [RAND_DEN])) c h2

/-- C8 counterexample: `Math.random()` can return `0`, whose base-36
rendering is just `"0"`, so `slice(2, 8)` yields the *empty* marker id —
not a string of at least 6 characters. -/
theorem claim_C8_counterexample :
    randomRunId 0 = [] ∧ ¬(6 ≤ (randomRunId 0).length) := by
  decide

/-- C8 amended: every generated marker id is a string of *at most* six
base-36 characters (digits and lowercase letters); ids shorter than six
characters occur exactly when the random double's base-36 expansion
terminates early (e.g. the empty id for `Math.random() = 0`). -/
theorem claim_C8_runid (k : Nat) (h : k < RAND_DEN) :
    (randomRunId k).length ≤ 6 ∧
    ∀ c ∈ randomRunId k, c ∈ base36Table := by
  exact ⟨runIdDigits_length_le 6 k, runIdDigits_mem 6 k h⟩

/-- Witness for C8 at `k = 1` (the double `2 ^ -53`). -/
theorem claim_C8_witness :
    (randomRunId 1).length ≤ 6 ∧ ∀ c ∈ randomRunId 1, c ∈ base36Table :=
  claim_C8_runid 1 (by norm_num [RAND_DEN])

/-! ## Marker-matching lemmas (C10, C1) -/

theorem mark_concat_shape (pre id : List Char) :
    pre ++ id ++ "__".data = (pre ++ id ++ ['_']) ++ ['_'] := by
  have h2 : "__".data = ['_', '_'] := by decide
  rw [h2]
  simp

theorem echo_mark_no_match (pre id : List Char) :
    isMarkLine (pre ++ id ++ "__".data)
      ("echo ".data ++ (pre ++ id ++ "__".data)) = false := by
  apply isMarkLine_of_prefixed_false
  · exact ⟨'e', "cho ".data, by decide, by decide⟩
  · exact ⟨pre ++ id ++ ['_'], '_', mark_concat_shape pre id, by decide⟩

/-- C10: whenever the line-based extraction of `GetDeviceInfoTool` /
`GetDriverInfoTool` succeeds, the buffered slice decomposes around the
*first* line trim-equal to the start marker and the *first* later line
trim-equal to the end marker, and the payload is exactly the lines strictly
between them (both marker lines excluded); moreover an echoed script source
line `echo <marker>` never counts as a marker line, for any id and any of
the four marker shapes. -/
theorem claim_C10_line_exact (S E : List Char) (slice payload : List (List Char))
    (h : markPairExtract S E slice = some payload) :
    (∃ pre sL mid eL post,
        slice = pre ++ sL :: (mid ++ eL :: post) ∧
        isMarkLine S sL = true ∧
        isMarkLine E eL = true ∧
        payload = mid ∧
        (∀ l ∈ pre, isMarkLine S l = false) ∧
        (∀ l ∈ mid, isMarkLine E l = false)) ∧
    (∀ id,
        isMarkLine (devStartMark id) ("echo ".data ++ devStartMark id) = false ∧
        isMarkLine (devEndMark id) ("echo ".data ++ devEndMark id) = false ∧
        isMarkLine (drvStartMark id) ("echo ".data ++ drvStartMark id) = false ∧
        isMarkLine (drvEndMark id) ("echo ".data ++ drvEndMark id) = false) := by
  constructor
  · cases hS : firstMatch (isMarkLine S) slice with
    | none => rw [markPairExtract, hS] at h; exact absurd h (by simp)
    | some i =>
      cases hE : firstMatch (isMarkLine E) (slice.drop (i + 1)) with
      | none =>
        rw [markPairExtract, hS] at h
        simp only [] at h
        rw [hE] at h
        exact absurd h (by simp)
      | some j =>
        rw [markPairExtract, hS] at h
        simp only [] at h
        rw [hE] at h
        simp only [] at h
        have hp : payload = (slice.drop (i + 1)).take j := (Option.some.inj h).symm
        obtain ⟨pre, sL, rest, hsl, hlenpre, hsT, hpreF⟩ := firstMatch_decomp hS
        have hdrop : slice.drop (i + 1) = rest := by
          rw [hsl, ← hlenpre]
          exact drop_len_cons pre sL rest
        rw [hdrop] at hE hp
        obtain ⟨mid, eL, post, hre, hlenmid, heT, hmidF⟩ := firstMatch_decomp hE
        refine ⟨pre, sL, mid, eL, post, ?_, hsT, heT, ?_, hpreF, hmidF⟩
        · rw [hsl, hre]
        · rw [hp, hre, ← hlenmid, take_len_append]
  · intro id
    exact ⟨echo_mark_no_match "__START_".data id,
           echo_mark_no_match "__END_".data id,
           echo_mark_no_match "__DRV_START_".data id,
           echo_mark_no_match "__DRV_END_".data id⟩

/-- Witness for C10 on a four-line capture around id `k7`. -/
theorem claim_C10_witness :
    (∃ pre sL mid eL post,
        ([ "boot".data, devStartMark "k7".data, "out".data,
           devEndMark "k7".data ] : List (List Char))
          = pre ++ sL :: (mid ++ eL :: post) ∧
        isMarkLine (devStartMark "k7".data) sL = true ∧
        isMarkLine (devEndMark "k7".data) eL = true ∧
        ([ "out".data ] : List (List Char)) = mid ∧
        (∀ l ∈ pre, isMarkLine (devStartMark "k7".data) l = false) ∧
        (∀ l ∈ mid, isMarkLine (devEndMark "k7".data) l = false)) ∧
    (∀ id,
        isMarkLine (devStartMark id) ("echo ".data ++ devStartMark id) = false ∧
        isMarkLine (devEndMark id) ("echo ".data ++ devEndMark id) = false ∧
        isMarkLine (drvStartMark id) ("echo ".data ++ drvStartMark id) = false ∧
        isMarkLine (drvEndMark id) ("echo ".data ++ drvEndMark id) = false) :=
  claim_C10_line_exact (devStartMark "k7".data) (devEndMark "k7".data)
    [ "boot".data, devStartMark "k7".data, "out".data, devEndMark "k7".data ]
    [ "out".data ] (by decide)

/-- C1 counterexample: a capture holding two complete pairs for id `k7`
with payloads `one` (first pair) and `two` (last pair).  The
`GetDeviceInfoTool` extraction returns the payload of the *first* complete
pair, not the last one as claimed. -/
theorem claim_C1_counterexample :
    markPairExtract (devStartMark "k7".data) (devEndMark "k7".data)
      [devStartMark "k7".data, "one".data, devEndMark "k7".data,
       devStartMark "k7".data, "two".data, devEndMark "k7".data]
      = some ["one".data] ∧
    ¬(markPairExtract (devStartMark "k7".data) (devEndMark "k7".data)
        [devStartMark "k7".data, "one".data, devEndMark "k7".data,
         devStartMark "k7".data, "two".data, devEndMark "k7".data]
      = some ["two".data]) := by
  decide

/-- C1 amended: the pair selection differs per tool.  `GetDeviceInfoTool`
(and `GetDriverInfoTool`) always select the *first* complete pair — shown
here on any capture with two complete pairs — and also accept a single
pair; `GetDeviceTreeTool` prefers the *second* complete pair (not the
last: on three pairs it returns the second payload); `RealTimeAnalysisTool`
requires a second start marker and takes the text from it to the next end
marker (second pair of three), with *no* single-pair fallback (a
single-pair capture keeps polling forever). -/
theorem claim_C1_pair_selection (S E : List Char) (a b : List (List Char))
    (hS : jsTrim S = S) (hE : jsTrim E = E)
    (ha : ∀ l ∈ a, isMarkLine E l = false) :
    markPairExtract S E (S :: (a ++ E :: (S :: (b ++ [E])))) = some a ∧
    markPairExtract S E (S :: (a ++ [E])) = some a ∧
    dtExtract "__DT_START_a__".data "__DT_END_a__".data
      ("x__DT_START_a__\nN|one\n__DT_END_a__y__DT_START_a__\nN|two\n__DT_END_a__z__DT_START_a__\nN|three\n__DT_END_a__".data)
      = some "\nN|two\n".data ∧
    rtExtract "__RT_START_a__".data "__RT_END_a__".data
      ("p__RT_START_a__1__RT_END_a__q__RT_START_a__2__RT_END_a__r__RT_START_a__3__RT_END_a__".data)
      = some "2".data ∧
    rtExtract "__RT_START_a__".data "__RT_END_a__".data
      ("p__RT_START_a__1__RT_END_a__q".data) = none := by
  have hSm : isMarkLine S S = true := by simp [isMarkLine, hS]
  have hEm : isMarkLine E E = true := by simp [isMarkLine, hE]
  refine ⟨?_, ?_, by decide, by decide, by decide⟩
  · rw [markPairExtract, firstMatch_cons_true _ hSm]
    simp only []
    rw [List.drop_succ_cons, List.drop_zero, firstMatch_first a _ ha hEm]
    simp only []
    rw [take_len_append]
  · rw [markPairExtract, firstMatch_cons_true _ hSm]
    simp only []
    rw [List.drop_succ_cons, List.drop_zero, firstMatch_first a _ ha hEm]
    simp only []
    rw [take_len_append]

/-- Witness for C1 with id `k7`, first payload `one`, second payload
`two`. -/
theorem claim_C1_witness :
    markPairExtract (devStartMark "k7".data) (devEndMark "k7".data)
      (devStartMark "k7".data :: (["one".data] ++ devEndMark "k7".data ::
        (devStartMark "k7".data :: (["two".data] ++ [devEndMark "k7".data]))))
      = some ["one".data] ∧
    markPairExtract (devStartMark "k7".data) (devEndMark "k7".data)
      (devStartMark "k7".data :: (["one".data] ++ [devEndMark "k7".data]))
      = some ["one".data] ∧
    dtExtract "__DT_START_a__".data "__DT_END_a__".data
      ("x__DT_START_a__\nN|one\n__DT_END_a__y__DT_START_a__\nN|two\n__DT_END_a__z__DT_START_a__\nN|three\n__DT_END_a__".data)
      = some "\nN|two\n".data ∧
    rtExtract "__RT_START_a__".data "__RT_END_a__".data
      ("p__RT_START_a__1__RT_END_a__q__RT_START_a__2__RT_END_a__r__RT_START_a__3__RT_END_a__".data)
      = some "2".data ∧
    rtExtract "__RT_START_a__".data "__RT_END_a__".data
      ("p__RT_START_a__1__RT_END_a__q".data) = none :=
  claim_C1_pair_selection (devStartMark "k7".data) (devEndMark "k7".data)
    ["one".data] ["two".data] (by decide) (by decide) (by decide)

/-! ## Polling lemmas (C2) -/

theorem markPairExtract_none_of_no_end (S E : List Char)
    (slice : List (List Char)) (h : ∀ l ∈ slice, isMarkLine E l = false) :
    markPairExtract S E slice = none := by
  cases hS : firstMatch (isMarkLine S) slice with
  | none => simp [markPairExtract, hS]
  | some i =>
    have hE : firstMatch (isMarkLine E) (slice.drop (i + 1)) = none :=
      firstMatch_none _ (fun z hz => h z (List.mem_of_mem_drop hz))
    simp [markPairExtract, hS, hE]

theorem pollLoop_congr_none {α : Type} (extract : Nat → Option α) (T P : Nat)
    (h : ∀ k, extract k = none) :
    ∀ fuel tick, pollLoop extract T P tick fuel
      = pollLoop (fun _ => (none : Option α)) T P tick fuel := by
  intro fuel
  induction fuel with
  | zero => intro tick; rfl
  | succ n ih =>
    intro tick
    simp only [pollLoop, h tick]
    split
    · rfl
    · exact ih (tick + 1)

theorem drvPollLoop_congr_none (extract : Nat → Option (List (List Char)))
    (T P : Nat) (h : ∀ k, extract k = none) :
    ∀ fuel tick, drvPollLoop extract T P tick fuel
      = drvPollLoop (fun _ => none) T P tick fuel := by
  intro fuel
  induction fuel with
  | zero => intro tick; rfl
  | succ n ih =>
    intro tick
    simp only [drvPollLoop, h tick]
    split
    · rfl
    · exact ih (tick + 1)

set_option maxRecDepth 40000 in
/-- C2 counterexample: with a log buffer in which the end marker never
appears (here: always empty), `GetDriverInfoTool.scanViaSerialLogBuffer`
does not fail with a `Timeout` outcome — its promise *resolves*, at
deadline + one poll interval, with the partial (all-empty) section
accumulators, which are then parsed into a normal report for the caller. -/
theorem claim_C2_counterexample :
    driverScanRun (fun _ => []) 0 "k7".data
      = .resolvedWith emptyDrvSections 30150 := by
  rfl

set_option maxRecDepth 40000 in
/-- C2 amended: `GetDeviceInfoTool`'s framed request does behave as
claimed: when no line of any buffer snapshot is trim-equal to the end
marker, it rejects with the timeout error at 20100 ms — strictly after the
20000 ms deadline and no later than deadline + one 150 ms poll interval —
and no payload is returned.  `GetDriverInfoTool`'s scan, however, resolves
at 30150 ms with the empty partial sections instead of failing. -/
theorem claim_C2_timeout (bufAt : Nat → List (List Char)) (startLen : Nat)
    (id : List Char)
    (hdev : ∀ k, ∀ l ∈ bufAt k, isMarkLine (devEndMark id) l = false)
    (bufAt2 : Nat → List (List Char)) (startLen2 : Nat) (id2 : List Char)
    (hdrv : ∀ k, ∀ l ∈ bufAt2 k, isMarkLine (drvEndMark id2) l = false) :
    (devInfoRun bufAt startLen id = .timedOut 20100 ∧
      20000 < 20100 ∧ 20100 ≤ 20000 + 150) ∧
    (driverScanRun bufAt2 startLen2 id2
        = .resolvedWith emptyDrvSections 30150 ∧ 30150 ≤ 30000 + 150) := by
  have hdevNone : ∀ k, markPairExtract (devStartMark id) (devEndMark id)
      ((bufAt k).drop startLen) = none := fun k =>
    markPairExtract_none_of_no_end _ _ _
      (fun l hl => hdev k l (List.mem_of_mem_drop hl))
  have hdrvNone : ∀ k, markPairExtract (drvStartMark id2) (drvEndMark id2)
      ((bufAt2 k).drop startLen2) = none := fun k =>
    markPairExtract_none_of_no_end _ _ _
      (fun l hl => hdrv k l (List.mem_of_mem_drop hl))
  constructor
  · rw [devInfoRun, pollLoop_congr_none _ 20000 150 hdevNone 135 1]
    exact ⟨rfl, by norm_num, by norm_num⟩
  · rw [driverScanRun, drvPollLoop_congr_none _ 30000 150 hdrvNone 202 1]
    exact ⟨rfl, by norm_num⟩

/-- Witness for C2 on permanently empty buffers with ids `k7` and `z9`. -/
theorem claim_C2_witness :
    (devInfoRun (fun _ => []) 0 "k7".data = .timedOut 20100 ∧
      20000 < 20100 ∧ 20100 ≤ 20000 + 150) ∧
    (driverScanRun (fun _ => []) 3 "z9".data
        = .resolvedWith emptyDrvSections 30150 ∧ 30150 ≤ 30000 + 150) :=
  claim_C2_timeout (fun _ => []) 0 "k7".data (by simp)
    (fun _ => []) 3 "z9".data (by simp)
